import Mathlib

/-!
Shallow embedding of the attendance recognition core of
`src/attendance_system.py`, together with proofs about the
confirmation state machine, the attendance ledger, the embedding
cache and the database helper.
-/

namespace AttendanceSystem

/-! ## Database helper (`execute_db`, lines 157-186)

The source method executes a query and then branches on the `fetch`
argument: `if fetch: return cursor.fetchall()`,
`elif fetch == 'one': return cursor.fetchone()`, `return True`.
We model the Python `fetch` argument (`False`, `True` or the string
`'one'`) as an inductive type and the cursor's pending result set as
the list of rows the executed query produced.  Retrying on
"database is locked" and committing are I/O effects outside the
result-shape question and are not modelled. -/

/-- The value passed for `fetch`: a Python boolean or the string `'one'`. -/
inductive FetchArg where
  | bool (b : Bool)
  | one
deriving DecidableEq

/-- Python truthiness of the `fetch` argument: `False` is falsy,
`True` and the non-empty string `'one'` are truthy. -/
def FetchArg.truthy : FetchArg → Bool
  | .bool b => b
  | .one => true

/-- What `execute_db` returns: `fetchall()` (a list of rows),
`fetchone()` (an optional row), or the bare `True`. -/
inductive DbResult (α : Type) where
  | rows (rs : List α)
  | row (r : Option α)
  | ok
deriving DecidableEq

/-- `execute_db`, lines 157-186 of the source: after executing the
query (whose result set is `results`), branch on `fetch` exactly as
the source does: any truthy `fetch` returns `fetchall()`; only a
falsy `fetch` reaches the `elif fetch == 'one'` test. -/
def execute_db {α : Type} (results : List α) (fetch : FetchArg) : DbResult α :=
  if fetch.truthy then .rows results
  else if fetch = .one then .row results.head?
  else .ok

/-! ## Attendance ledger (`mark_attendance`, lines 1017-1072)

Rows of the `attendance` table, and the check-in / check-out code
paths taken once a face has been accepted.  SQLite row ids are made
explicit (`checkIn` receives the id the insert would allocate). -/

/-- One row of the `attendance` table:
`(id, student_username, date, time_in, time_out, status)`. -/
structure AttRow where
  id : Nat
  student_username : String
  date : String
  time_in : Option String
  time_out : Option String
  status : String
deriving DecidableEq

/-- The attendance table, as the list of its rows. -/
abbrev AttDb := List AttRow

/-- The guard query shared by both branches (lines 1024-1027 and
1049-1052): `SELECT id FROM attendance WHERE student_username = ?
AND date = ? AND time_in IS NOT NULL`.  It is run with
`fetch = 'one'`, which by `execute_db` returns the full row list;
the caller only tests its truthiness. -/
def attendanceGuard (db : AttDb) (name today : String) : List Nat :=
  (db.filter fun r =>
    r.student_username == name && r.date == today && r.time_in.isSome).map (·.id)

/-- Outcome of the check-in branch: the `Success` info box or the
`already marked attendance IN today` warning. -/
inductive CheckInResult where
  | Recorded
  | AlreadyMarked
deriving DecidableEq

/-- Outcome of the check-out branch: the `Success` info box or the
`has not marked attendance IN today` warning. -/
inductive CheckOutResult where
  | Recorded
  | NoOpenCheckIn
deriving DecidableEq

/-- Check-in branch, lines 1021-1038: if the guard query returns a
truthy result, warn and write nothing; otherwise
`INSERT INTO attendance (student_username, date, time_in, status)
VALUES (name, today, current_time, 'Present')`. -/
def checkIn (db : AttDb) (name today time : String) (newId : Nat) :
    CheckInResult × AttDb :=
  if attendanceGuard db name today ≠ [] then
    (.AlreadyMarked, db)
  else
    (.Recorded, db ++ [⟨newId, name, today, some time, none, "Present"⟩])

/-- Check-out branch, lines 1046-1065: if the guard query returns a
falsy result, warn and write nothing; otherwise
`UPDATE attendance SET time_out = time, status = 'Completed'
WHERE student_username = name AND date = today AND time_out IS NULL`. -/
def checkOut (db : AttDb) (name today time : String) :
    CheckOutResult × AttDb :=
  if attendanceGuard db name today = [] then
    (.NoOpenCheckIn, db)
  else
    (.Recorded, db.map fun r =>
      if r.student_username == name && r.date == today && r.time_out.isNone then
        { r with time_out := some time, status := "Completed" }
      else r)

/-! ## Embedding store (`load_face_encodings`, lines 217-233)

The method caches the parsed pickle by the artifact's modification
time: a missing file returns `None`; a cache whose stored `mtime`
equals the file's current `mtime` is returned as-is, without opening
the file; otherwise the file is read, parsed, and the cache replaced.
We model the filesystem view as the pair (does the artifact exist,
its current mtime) plus what a fresh parse of it would yield, and
record in `didRead` whether the `open`/`pickle.load` block ran. -/

/-- The cached entry held in `self.encoding_cache`:
`{'mtime': ..., 'data': ...}`; the parsed data is abstract. -/
structure EncodingCache (α : Type) where
  mtime : Nat
  data : α
deriving DecidableEq

/-- The observable outcome of one `load_face_encodings` call: the
returned value, the cache field afterwards, and whether the artifact
file was opened and parsed during the call. -/
structure LoadOutcome (α : Type) where
  result : Option α
  cache : Option (EncodingCache α)
  didRead : Bool
deriving DecidableEq

/-- `load_face_encodings`, lines 217-233: return `None` when the
artifact is missing; return the cached data without reading when the
cached mtime equals the file's mtime; otherwise read and parse the
file (`file_data`) and replace the cache. -/
def load_face_encodings {α : Type} (file_exists : Bool) (file_mtime : Nat)
    (file_data : α) (cache : Option (EncodingCache α)) : LoadOutcome α :=
  if file_exists = false then ⟨none, cache, false⟩
  else
    match cache with
    | some c =>
        if c.mtime = file_mtime then ⟨some c.data, some c, false⟩
        else ⟨some file_data, some ⟨file_mtime, file_data⟩, true⟩
    | none => ⟨some file_data, some ⟨file_mtime, file_data⟩, true⟩

/-! ## Recognition engine and confirmation state machine
(`mark_attendance`, lines 930-1098)

Per detected face, the source computes
`face_distances = face_recognition.face_distance(known_encodings, e)`
and `matches = face_recognition.compare_faces(known_encodings, e,
tolerance=0.55)` (which, in the face_recognition library, is exactly
the element-wise test `face_distance(...) <= tolerance`), takes
`best_match_index = np.argmin(face_distances)` and accepts when
`matches[best_match_index] and best_distance < 0.6`.  We model a
detected face by its distance vector to the store (one rational per
known encoding) and keep the loop state
`(recognized, recognition_count, last_recognized_name)` of lines
930-934, plus a counter of how many times the ledger block (lines
1017-1072) has run. -/

/-- A detected face, abstracted to its `face_distance` vector against
the known encodings. -/
structure Face where
  dists : List ℚ
deriving DecidableEq

/-- `compare_faces(known, enc, tolerance)` of the face_recognition
library: the element-wise list `face_distance(known, enc) <= tol`. -/
def compare_faces (dists : List ℚ) (tol : ℚ) : List Bool :=
  dists.map (fun d => d ≤ tol)

/-- `np.argmin`: the index of the first minimal element of the list
(0 on the empty list, which numpy would reject). -/
def np_argmin : List ℚ → Nat
  | [] => 0
  | [_] => 0
  | x :: y :: ys =>
      let j := np_argmin (y :: ys)
      if (y :: ys).getD j y < x then j + 1 else 0

/-- `required_matches = 3`, line 932. -/
def required_matches : Nat := 3

/-- The mutable state of the recognition loop, lines 930-934, plus
`marked`: how many times the attendance-saving block has executed. -/
structure SessionState where
  recognized : Bool
  recognition_count : Nat
  last_recognized_name : Option String
  marked : Nat
deriving DecidableEq

/-- The initial loop state of lines 930-934:
`recognized = False`, `recognition_count = 0`,
`last_recognized_name = None`, and no ledger write yet. -/
def initState : SessionState :=
  ⟨false, 0, none, 0⟩

/-- One iteration of the `for (top, right, bottom, left), face_encoding
in zip(...)` body, lines 976-1083.  Returns the updated state and
whether the body executed `break` (which happens exactly when the
consecutive-match count reaches `required_matches`; the ledger block
runs at that moment, counted in `marked`). -/
def stepFace (known_names : List String) (s : SessionState) (f : Face) :
    SessionState × Bool :=
  if 0 < f.dists.length then
    let best_match_index := np_argmin f.dists
    let best_distance := f.dists.getD best_match_index 0
    let matchFlags := compare_faces f.dists (11/20)
    if matchFlags.getD best_match_index false && decide (best_distance < 3/5) then
      let current_name := known_names.getD best_match_index ""
      let s1 :=
        if some current_name = s.last_recognized_name then
          { s with recognition_count := s.recognition_count + 1 }
        else
          { s with recognition_count := 1,
                   last_recognized_name := some current_name }
      if required_matches ≤ s1.recognition_count then
        ({ s1 with recognized := true, marked := s1.marked + 1 }, true)
      else
        (s1, false)
    else
      ({ s with recognition_count := 0, last_recognized_name := none }, false)
  else
    (s, false)

/-- The full `for` loop over the faces detected in one frame: each
face is processed in detection order; a `break` ends the loop. -/
def processFaces (known_names : List String) :
    List Face → SessionState → SessionState
  | [], s => s
  | f :: fs, s =>
      match stepFace known_names s f with
      | (s1, true) => s1
      | (s1, false) => processFaces known_names fs s1

/-- One processed frame, lines 969-1083: when
`len(face_locations) == 0` only the status text changes (the
recognition state is untouched); otherwise the face loop runs. -/
def processFrame (known_names : List String) (faces : List Face)
    (s : SessionState) : SessionState :=
  if faces.length = 0 then s
  else processFaces known_names faces s

/-- The outer `while not recognized` loop, line 937, restricted to
the frames that are actually processed (the `frame_count %
process_every` skip of line 947 only affects which frames reach
here): each processed frame advances the state until `recognized`
becomes true, after which no further frame is consumed. -/
def runFrames (known_names : List String) :
    List (List Face) → SessionState → SessionState
  | [], s => s
  | fr :: rest, s =>
      if s.recognized then s
      else runFrames known_names rest (processFrame known_names fr s)

/-- A face accepted as identity `X`: the store is non-empty, both
threshold tests of line 986 pass at the argmin index, and the name at
that index is `X`.  This is what a frame "reporting identity `X`"
means for the confirmation protocol. -/
def acceptsAs (known_names : List String) (X : String) (f : Face) : Prop :=
  f.dists ≠ [] ∧
  (compare_faces f.dists (11/20)).getD (np_argmin f.dists) false = true ∧
  f.dists.getD (np_argmin f.dists) 0 < 3/5 ∧
  known_names.getD (np_argmin f.dists) "" = X

/-! ## Helper lemmas -/

theorem attendanceGuard_append (db1 db2 : AttDb) (name today : String) :
    attendanceGuard (db1 ++ db2) name today =
      attendanceGuard db1 name today ++ attendanceGuard db2 name today := by
  simp [attendanceGuard]

theorem np_argmin_lt_length : ∀ (l : List ℚ), l ≠ [] → np_argmin l < l.length
  | [], h => absurd rfl h
  | [_], _ => Nat.zero_lt_one
  | x :: y :: ys, _ => by
      have ih := np_argmin_lt_length (y :: ys) (by simp)
      rw [np_argmin]
      split
      · simpa using Nat.succ_lt_succ ih
      · simp

theorem np_argmin_is_min : ∀ (l : List ℚ), l ≠ [] →
    l.getD (np_argmin l) 0 ∈ l ∧ ∀ d ∈ l, l.getD (np_argmin l) 0 ≤ d
  | [], h => absurd rfl h
  | [x], _ => by simp [np_argmin]
  | x :: y :: ys, _ => by
      have ih := np_argmin_is_min (y :: ys) (by simp)
      have hlt := np_argmin_lt_length (y :: ys) (by simp)
      have hdef : (y :: ys).getD (np_argmin (y :: ys)) y =
          (y :: ys).getD (np_argmin (y :: ys)) 0 := by
        rw [List.getD_eq_getElem _ _ hlt, List.getD_eq_getElem _ _ hlt]
      rw [np_argmin]
      split
      · next hcase =>
          rw [hdef] at hcase
          constructor
          · simpa [List.getD_cons_succ] using List.mem_cons_of_mem x ih.1
          · intro d hd
            rcases List.mem_cons.mp hd with rfl | hd
            · simpa [List.getD_cons_succ] using le_of_lt hcase
            · simpa [List.getD_cons_succ] using ih.2 d hd
      · next hcase =>
          rw [hdef] at hcase
          push_neg at hcase
          constructor
          · simp [List.getD_cons_zero]
          · intro d hd
            rcases List.mem_cons.mp hd with rfl | hd
            · simp [List.getD_cons_zero]
            · simpa [List.getD_cons_zero] using le_trans hcase (ih.2 d hd)

theorem stepFace_break_recognized (known_names : List String)
    (s : SessionState) (f : Face) (h : (stepFace known_names s f).2 = true) :
    (stepFace known_names s f).1.recognized = true := by
  simp only [stepFace] at h ⊢
  split at h
  · split at h
    · split at h
      · split at h
        · simp_all
        · simp at h
      · split at h
        · simp_all
        · simp at h
    · simp at h
  · simp at h

theorem runFrames_of_recognized (known_names : List String)
    (frames : List (List Face)) (s : SessionState)
    (h : s.recognized = true) :
    runFrames known_names frames s = s := by
  cases frames with
  | nil => rfl
  | cons fr rest => simp [runFrames, h]

/-! ## Claim theorems -/

/-- C10: for every result set, `execute_db` called with
`fetch = 'one'` takes the `fetchall` branch, so it returns the same
value as `fetch = True`, namely the full list of rows; the `fetchone`
branch is unreachable for truthy arguments. -/
theorem execute_db_one_is_fetchall {α : Type} (results : List α) :
    execute_db results .one = execute_db results (.bool true) ∧
    execute_db results .one = .rows results :=
  ⟨rfl, rfl⟩

/-- C8: when the artifact exists, a second `load_face_encodings` call
with an unchanged modification time returns exactly the data object
held in the cache after the first call, without reading the file
(`didRead = false`) and regardless of what a fresh parse would now
yield; a changed modification time forces a read that replaces the
cache. -/
theorem load_face_encodings_cached {α : Type}
    (cache : Option (EncodingCache α)) (m : Nat) (d d2 : α) :
    (load_face_encodings true m d2 (load_face_encodings true m d cache).cache
      = ⟨(load_face_encodings true m d cache).result,
         (load_face_encodings true m d cache).cache, false⟩) ∧
    (∀ m2 : Nat, m2 ≠ m →
      load_face_encodings true m2 d2 (load_face_encodings true m d cache).cache
        = ⟨some d2, some ⟨m2, d2⟩, true⟩) := by
  rcases cache with _ | c
  · exact ⟨by simp [load_face_encodings], fun m2 hm2 => by
      simp [load_face_encodings, Ne.symm hm2]⟩
  · by_cases hm : c.mtime = m
    · exact ⟨by simp [load_face_encodings, hm], fun m2 hm2 => by
        simp [load_face_encodings, hm, Ne.symm hm2]⟩
    · exact ⟨by simp [load_face_encodings, hm], fun m2 hm2 => by
        simp [load_face_encodings, hm, Ne.symm hm2]⟩

/-- Witness for C8 at a concrete cache state: a miss at mtime 0
followed by a hit at mtime 0, and a reload at mtime 1. -/
theorem load_face_encodings_cached_witness :
    (load_face_encodings true 0 (7 : Nat)
        (load_face_encodings true 0 (5 : Nat) none).cache
      = ⟨(load_face_encodings true 0 (5 : Nat)
            (none : Option (EncodingCache Nat))).result,
         (load_face_encodings true 0 (5 : Nat)
            (none : Option (EncodingCache Nat))).cache, false⟩) ∧
    (load_face_encodings true 1 (7 : Nat)
        (load_face_encodings true 0 (5 : Nat) none).cache
      = ⟨some 7, some ⟨1, 7⟩, true⟩) :=
  ⟨(load_face_encodings_cached none 0 5 7).1,
   (load_face_encodings_cached none 0 5 7).2 1 (by decide)⟩

/-- C5: a check-out when no `(identity, date)` row has `time_in` set
returns `NoOpenCheckIn` and leaves the attendance table unchanged. -/
theorem checkOut_no_open_checkin (db : AttDb) (S D T : String)
    (h : attendanceGuard db S D = []) :
    checkOut db S D T = (.NoOpenCheckIn, db) := by
  simp [checkOut, h]

/-- Witness for C5 on the empty table. -/
theorem checkOut_no_open_checkin_witness :
    attendanceGuard [] "s" "d" = [] ∧
    checkOut [] "s" "d" "t" = (.NoOpenCheckIn, []) :=
  ⟨by decide, checkOut_no_open_checkin [] "s" "d" "t" (by decide)⟩

/-- C4: on a table with no `(S, D)` row having `time_in` set, a first
check-in records a row with `time_in = T1` and status `Present`; a
second check-in returns `AlreadyMarked` and writes nothing, so the
stored `time_in` stays `T1`. -/
theorem checkIn_then_checkIn (db : AttDb) (S D T1 T2 : String)
    (id1 id2 : Nat) (h : attendanceGuard db S D = []) :
    checkIn db S D T1 id1
      = (.Recorded, db ++ [⟨id1, S, D, some T1, none, "Present"⟩]) ∧
    checkIn (db ++ [⟨id1, S, D, some T1, none, "Present"⟩]) S D T2 id2
      = (.AlreadyMarked, db ++ [⟨id1, S, D, some T1, none, "Present"⟩]) := by
  have h2 : attendanceGuard (db ++ [⟨id1, S, D, some T1, none, "Present"⟩]) S D
      = [id1] := by
    rw [attendanceGuard_append, h]
    simp [attendanceGuard]
  exact ⟨by simp [checkIn, h], by simp [checkIn, h2]⟩

/-- Witness for C4 on the empty table. -/
theorem checkIn_then_checkIn_witness :
    attendanceGuard [] "s" "d" = [] ∧
    (checkIn [] "s" "d" "t1" 1
      = (.Recorded, [⟨1, "s", "d", some "t1", none, "Present"⟩]) ∧
    checkIn [⟨1, "s", "d", some "t1", none, "Present"⟩] "s" "d" "t2" 2
      = (.AlreadyMarked, [⟨1, "s", "d", some "t1", none, "Present"⟩])) :=
  ⟨by decide, by
    have := checkIn_then_checkIn [] "s" "d" "t1" "t2" 1 2 (by decide)
    simpa using this⟩

/-- C9: when every `(S, D)` row already has `time_out` set (and at
least one has `time_in` set, so the guard passes), a check-out shows
the success message yet the `time_out IS NULL` filter of its UPDATE
matches nothing: the table is returned unchanged. -/
theorem checkOut_completed_reports_success (db : AttDb) (S D T : String)
    (h1 : attendanceGuard db S D ≠ [])
    (h2 : ∀ r ∈ db, r.student_username = S → r.date = D → r.time_out.isSome) :
    checkOut db S D T = (.Recorded, db) := by
  have hmap : (db.map fun r =>
      if r.student_username == S && r.date == D && r.time_out.isNone then
        { r with time_out := some T, status := "Completed" } else r) = db := by
    have hfix : ∀ r ∈ db,
        (if r.student_username == S && r.date == D && r.time_out.isNone then
          { r with time_out := some T, status := "Completed" } else r) = id r := by
      intro r hr
      by_cases hs : r.student_username = S
      · by_cases hd : r.date = D
        · obtain ⟨v, hv⟩ := Option.isSome_iff_exists.mp (h2 r hr hs hd)
          simp [hv]
        · simp [hd]
      · simp [hs]
    rw [List.map_congr_left hfix, List.map_id]
  simp only [checkOut, if_neg h1, hmap]

/-- Witness for C9: one completed row; the check-out at a later time
leaves it untouched while still reporting success. -/
theorem checkOut_completed_reports_success_witness :
    attendanceGuard [⟨1, "s", "d", some "t1", some "t2", "Completed"⟩] "s" "d"
      ≠ [] ∧
    checkOut [⟨1, "s", "d", some "t1", some "t2", "Completed"⟩] "s" "d" "t3"
      = (.Recorded, [⟨1, "s", "d", some "t1", some "t2", "Completed"⟩]) :=
  ⟨by decide,
   checkOut_completed_reports_success
     [⟨1, "s", "d", some "t1", some "t2", "Completed"⟩] "s" "d" "t3"
     (by decide) (by decide)⟩

/-- C2 counterexample: after a check-in at `t1` and a check-out at
`t2`, the single `(s, d)` event has `time_in` set, so a further
check-out at `t3` satisfies the claim's precondition; yet the most
recent (indeed only) such event keeps `time_out = t2` instead of
receiving `t3`, refuting the claim that the operation sets the most
recent `time_in`-bearing event's `time_out` to the given time. -/
theorem checkOut_most_recent_counterexample :
    attendanceGuard [⟨1, "s", "d", some "t1", some "t2", "Completed"⟩] "s" "d"
      ≠ [] ∧
    checkOut [⟨1, "s", "d", some "t1", some "t2", "Completed"⟩] "s" "d" "t3"
      = (.Recorded, [⟨1, "s", "d", some "t1", some "t2", "Completed"⟩]) ∧
    (checkOut [⟨1, "s", "d", some "t1", some "t2", "Completed"⟩] "s" "d" "t3").2
      ≠ [⟨1, "s", "d", some "t1", some "t3", "Completed"⟩] := by
  refine ⟨by decide, by decide, by decide⟩

/-- C2 (amended): a check-out whose guard finds a `(S, D)` row with
`time_in` set returns `Recorded` and updates exactly the rows matching
`(S, D)` with `time_out` unset, setting their `time_out` and status;
all other rows, in particular already-completed events, are returned
unchanged in place. -/
theorem checkOut_updates_open_rows (db : AttDb) (S D T : String)
    (h : attendanceGuard db S D ≠ []) :
    (checkOut db S D T).1 = .Recorded ∧
    (∀ i : Nat, (checkOut db S D T).2[i]? = (db[i]?).map fun r =>
        if r.student_username == S && r.date == D && r.time_out.isNone then
          { r with time_out := some T, status := "Completed" } else r) ∧
    (∀ r ∈ db, r.time_out.isSome → r ∈ (checkOut db S D T).2) := by
  have hout : checkOut db S D T = (.Recorded, db.map fun r =>
      if r.student_username == S && r.date == D && r.time_out.isNone then
        { r with time_out := some T, status := "Completed" } else r) := by
    simp [checkOut, h]
  refine ⟨by rw [hout], fun i => by rw [hout]; simp, ?_⟩
  intro r hr hsome
  rw [hout]
  refine List.mem_map.mpr ⟨r, hr, ?_⟩
  obtain ⟨v, hv⟩ := Option.isSome_iff_exists.mp hsome
  simp [hv]

/-- Witness for C2 (amended): one open row gets closed at `t2`. -/
theorem checkOut_updates_open_rows_witness :
    attendanceGuard [⟨1, "s", "d", some "t1", none, "Present"⟩] "s" "d" ≠ [] ∧
    (checkOut [⟨1, "s", "d", some "t1", none, "Present"⟩] "s" "d" "t2").1
      = .Recorded ∧
    (checkOut [⟨1, "s", "d", some "t1", none, "Present"⟩] "s" "d" "t2").2[0]?
      = (([⟨1, "s", "d", some "t1", none, "Present"⟩] : AttDb)[0]?).map
          fun r =>
            if r.student_username == "s" && r.date == "d" &&
                r.time_out.isNone then
              { r with time_out := some "t2", status := "Completed" }
            else r :=
  ⟨by decide,
   (checkOut_updates_open_rows [⟨1, "s", "d", some "t1", none, "Present"⟩]
     "s" "d" "t2" (by decide)).1,
   (checkOut_updates_open_rows [⟨1, "s", "d", some "t1", none, "Present"⟩]
     "s" "d" "t2" (by decide)).2.1 0⟩

/-- C1 counterexample: a frame with zero detected faces leaves a
mid-confirmation state (candidate `alice`, count 2) exactly as it
was; the counter is not reset to zero and the candidate is not
cleared, refuting the claimed transition to `Idle`. -/
theorem no_face_keeps_state_counterexample :
    processFrame ["alice"] [] ⟨false, 2, some "alice", 0⟩
      = ⟨false, 2, some "alice", 0⟩ ∧
    ¬ ((processFrame ["alice"] []
          ⟨false, 2, some "alice", 0⟩).recognition_count = 0 ∧
       (processFrame ["alice"] []
          ⟨false, 2, some "alice", 0⟩).last_recognized_name = none) := by
  decide

/-- C1 (amended): a processed frame in which zero faces are detected
leaves the confirmation state exactly unchanged — the
consecutive-match counter and the remembered candidate carry over
across the no-face frame. -/
theorem processFrame_no_face (known_names : List String) (s : SessionState) :
    processFrame known_names [] s = s := rfl

/-- C3 counterexample: with store `["alice"]`, a frame holding an
accepted face (distance 1/2) followed by an unrecognized face
(distance 9/10) ends with counter 0 and no candidate, while the same
frame truncated to its first face ends with counter 1 and candidate
`alice`: the second face did change the candidate identity and the
consecutive-match counter. -/
theorem first_face_only_counterexample :
    processFrame ["alice"] [⟨[(1:ℚ)/2]⟩, ⟨[(9:ℚ)/10]⟩] initState
      = ⟨false, 0, none, 0⟩ ∧
    processFrame ["alice"] [⟨[(1:ℚ)/2]⟩] initState
      = ⟨false, 1, some "alice", 0⟩ ∧
    (⟨false, 0, none, 0⟩ : SessionState) ≠ ⟨false, 1, some "alice", 0⟩ := by
  refine ⟨?_, ?_, by decide⟩
  · simp [processFrame, processFaces, stepFace, np_argmin, compare_faces,
      initState, required_matches]
    norm_num
  · simp [processFrame, processFaces, stepFace, np_argmin, compare_faces,
      initState, required_matches]
    norm_num

/-- C3 (amended): every detected face of a frame is fed to the
confirmation state machine in detection order; the loop stops early
only when a face reaches the required match count, so whenever no
face of the frame triggers acceptance the final state is the left
fold of the per-face transition over the whole face list — later
faces do affect the candidate and the counter. -/
theorem processFaces_feeds_all_faces (known_names : List String)
    (faces : List Face) (s : SessionState)
    (h : (processFaces known_names faces s).recognized = false) :
    processFaces known_names faces s
      = faces.foldl (fun t f => (stepFace known_names t f).1) s := by
  induction faces generalizing s with
  | nil => rfl
  | cons f fs ih =>
      have hp : processFaces known_names (f :: fs) s =
          match stepFace known_names s f with
          | (s1, true) => s1
          | (s1, false) => processFaces known_names fs s1 := rfl
      rcases hstep : stepFace known_names s f with ⟨s1, brk⟩
      cases brk
      · rw [hp, hstep] at h ⊢
        rw [List.foldl_cons]
        have hs1 : (stepFace known_names s f).1 = s1 := by rw [hstep]
        rw [hs1]
        exact ih s1 h
      · exfalso
        have hrec := stepFace_break_recognized known_names s f
          (by rw [hstep])
        rw [hp, hstep] at h
        rw [hstep] at hrec
        simp at h hrec
        rw [h] at hrec
        exact Bool.false_ne_true hrec

/-- Witness for C3 (amended) on the two-face frame of the
counterexample, which triggers no acceptance. -/
theorem processFaces_feeds_all_faces_witness :
    (processFaces ["alice"] [⟨[(1:ℚ)/2]⟩, ⟨[(9:ℚ)/10]⟩]
        initState).recognized = false ∧
    processFaces ["alice"] [⟨[(1:ℚ)/2]⟩, ⟨[(9:ℚ)/10]⟩] initState
      = [⟨[(1:ℚ)/2]⟩, ⟨[(9:ℚ)/10]⟩].foldl
          (fun t f => (stepFace ["alice"] t f).1) initState := by
  have hrec : (processFaces ["alice"] [⟨[(1:ℚ)/2]⟩, ⟨[(9:ℚ)/10]⟩]
      initState).recognized = false := by
    simp [processFaces, stepFace, np_argmin, compare_faces, initState,
      required_matches]
    norm_num
  exact ⟨hrec, processFaces_feeds_all_faces ["alice"]
    [⟨[(1:ℚ)/2]⟩, ⟨[(9:ℚ)/10]⟩] initState hrec⟩

/-- C7: for a detected face (with a non-empty store, guaranteed by
the early return at line 912), the distance compared against the 0.6
threshold is the minimum distance over the store, and an identity is
attributed (the loop state's candidate becomes the best-matching
name) exactly when `compare_faces` at tolerance 0.55 accepts the
argmin entry AND that minimum distance is strictly below 0.6; when
either check fails the face is unrecognized: the candidate is cleared
and the consecutive-match counter drops to 0. -/
theorem recognition_double_threshold (known_names : List String)
    (s : SessionState) (f : Face) (h : f.dists ≠ []) :
    (f.dists.getD (np_argmin f.dists) 0 ∈ f.dists ∧
      ∀ d ∈ f.dists, f.dists.getD (np_argmin f.dists) 0 ≤ d) ∧
    (((compare_faces f.dists (11/20)).getD (np_argmin f.dists) false = true ∧
        f.dists.getD (np_argmin f.dists) 0 < 3/5) ↔
      (stepFace known_names s f).1.last_recognized_name
        = some (known_names.getD (np_argmin f.dists) "")) ∧
    (¬ ((compare_faces f.dists (11/20)).getD (np_argmin f.dists) false = true ∧
        f.dists.getD (np_argmin f.dists) 0 < 3/5) →
      (stepFace known_names s f).1.recognition_count = 0 ∧
      (stepFace known_names s f).1.last_recognized_name = none) := by
  have hlen : 0 < f.dists.length := List.length_pos.mpr h
  by_cases hc : ((compare_faces f.dists (11/20)).getD (np_argmin f.dists) false = true ∧
      f.dists.getD (np_argmin f.dists) 0 < 3/5)
  · have hcond : ((compare_faces f.dists (11/20)).getD (np_argmin f.dists) false &&
        decide (f.dists.getD (np_argmin f.dists) 0 < 3/5)) = true := by
      rw [hc.1, Bool.true_and]
      exact decide_eq_true hc.2
    refine ⟨np_argmin_is_min f.dists h, ⟨fun _ => ?_, fun _ => hc⟩,
      fun hnc => absurd hc hnc⟩
    by_cases hn : some (known_names.getD (np_argmin f.dists) "")
        = s.last_recognized_name
    · simp only [stepFace, if_pos hlen, hcond, if_pos hn, if_true]
      split <;> simp [← hn]
    · simp only [stepFace, if_pos hlen, hcond, if_neg hn, if_true]
      split <;> simp
  · have hcond : ((compare_faces f.dists (11/20)).getD (np_argmin f.dists) false &&
        decide (f.dists.getD (np_argmin f.dists) 0 < 3/5)) = false := by
      rcases Bool.eq_false_or_eq_true
          ((compare_faces f.dists (11/20)).getD (np_argmin f.dists) false) with hx | hx
      · have hp : ¬ f.dists.getD (np_argmin f.dists) 0 < 3/5 :=
          fun hp => hc ⟨hx, hp⟩
        rw [hx, Bool.true_and]
        exact decide_eq_false hp
      · rw [hx, Bool.false_and]
    have hstate : (stepFace known_names s f).1
        = { s with recognition_count := 0, last_recognized_name := none } := by
      simp only [stepFace, if_pos hlen, hcond]
      simp
    refine ⟨np_argmin_is_min f.dists h,
      ⟨fun hcc => absurd hcc hc, fun hr => ?_⟩, fun _ => by simp [hstate]⟩
    rw [hstate] at hr
    simp at hr

/-- How one face that `acceptsAs X` advances the loop state: the
count increments when `X` was already the candidate (else restarts at
1), and the acceptance branch fires exactly when the count reaches 3,
running the ledger block once and setting the break flag. -/
theorem stepFace_acceptsAs (known_names : List String) (X : String) (f : Face)
    (hf : acceptsAs known_names X f) (s : SessionState) :
    stepFace known_names s f =
      if 3 ≤ (if some X = s.last_recognized_name then
          s.recognition_count + 1 else 1) then
        (⟨true, (if some X = s.last_recognized_name then
          s.recognition_count + 1 else 1), some X, s.marked + 1⟩, true)
      else
        (⟨s.recognized, (if some X = s.last_recognized_name then
          s.recognition_count + 1 else 1), some X, s.marked⟩, false) := by
  obtain ⟨hne, hcmp, hlt, hname⟩ := hf
  have hlen : 0 < f.dists.length := List.length_pos.mpr hne
  have hcond : ((compare_faces f.dists (11/20)).getD (np_argmin f.dists) false &&
      decide (f.dists.getD (np_argmin f.dists) 0 < 3/5)) = true := by
    rw [hcmp, Bool.true_and]
    exact decide_eq_true hlt
  simp only [stepFace, if_pos hlen, hcond, if_true, hname, required_matches]
  by_cases hn : some X = s.last_recognized_name
  · rcases s with ⟨r, c, l, m⟩
    simp_all
  · rcases s with ⟨r, c, l, m⟩
    simp_all

/-- Running frames that all report `X` from a mid-accumulation state
`(count = c < 3, candidate X)`: the count grows by one per frame
until it reaches 3, at which point the session accepts, the ledger
block runs once, and remaining frames are not consumed. -/
theorem runFrames_accum (known_names : List String) (X : String)
    (fs : List Face) (hall : ∀ f ∈ fs, acceptsAs known_names X f) :
    ∀ (c m : Nat), c < 3 →
    runFrames known_names (fs.map fun f => [f]) ⟨false, c, some X, m⟩ =
      if c + fs.length < 3 then ⟨false, c + fs.length, some X, m⟩
      else ⟨true, 3, some X, m + 1⟩ := by
  induction fs with
  | nil =>
      intro c m hc
      simp [runFrames, hc]
  | cons f fs ih =>
      intro c m hc
      have hf := hall f (List.mem_cons_self f fs)
      have hall2 : ∀ g ∈ fs, acceptsAs known_names X g :=
        fun g hg => hall g (List.mem_cons_of_mem f hg)
      have hstep := stepFace_acceptsAs known_names X f hf ⟨false, c, some X, m⟩
      simp only [eq_self_iff_true, if_true] at hstep
      rw [List.map_cons, runFrames]
      simp only [Bool.false_eq_true, if_false]
      rcases Nat.lt_or_ge (c + 1) 3 with h3 | h3
      · rw [if_neg (Nat.not_le_of_lt h3)] at hstep
        have hframe : processFrame known_names [f] ⟨false, c, some X, m⟩
            = ⟨false, c + 1, some X, m⟩ := by
          simp [processFrame, processFaces, hstep]
        rw [hframe, ih hall2 (c + 1) m h3]
        have harith : c + 1 + fs.length = c + (fs.length + 1) := by omega
        simp only [List.length_cons]
        rw [harith]
      · rw [if_pos (show 3 ≤ c + 1 from h3)] at hstep
        have hc2 : c + 1 = 3 := by omega
        have hframe : processFrame known_names [f] ⟨false, c, some X, m⟩
            = ⟨true, 3, some X, m + 1⟩ := by
          simp [processFrame, processFaces, hstep, hc2]
        rw [hframe, runFrames_of_recognized known_names _ _ rfl]
        simp only [List.length_cons]
        rw [if_neg (by omega)]
/-- C6: from the session's initial state, a sequence of N >= 3
processed frames each reporting the same accepted identity `X`
reaches acceptance exactly at the third frame and never earlier: no
prefix of fewer than 3 frames is accepted, and the whole run ends
recognized with count 3, candidate `X`, and the ledger block executed
exactly once (acceptance is terminal: frames after the third are not
consumed). -/
theorem confirmation_requires_three (known_names : List String) (X : String)
    (fs : List Face) (hall : ∀ f ∈ fs, acceptsAs known_names X f)
    (hlen : 3 ≤ fs.length) :
    (∀ k, k < 3 →
      (runFrames known_names ((fs.take k).map fun f => [f])
        initState).recognized = false) ∧
    runFrames known_names (fs.map fun f => [f]) initState
      = ⟨true, 3, some X, 1⟩ := by
  obtain ⟨f0, rest, rfl⟩ : ∃ f0 rest, fs = f0 :: rest := by
    cases fs with
    | nil => simp at hlen
    | cons a l => exact ⟨a, l, rfl⟩
  have hf0 := hall f0 (List.mem_cons_self f0 rest)
  have hrest : ∀ g ∈ rest, acceptsAs known_names X g :=
    fun g hg => hall g (List.mem_cons_of_mem f0 hg)
  have hfirst : processFrame known_names [f0] initState
      = ⟨false, 1, some X, 0⟩ := by
    have hstep := stepFace_acceptsAs known_names X f0 hf0 initState
    simp only [initState] at hstep
    rw [if_neg (Option.some_ne_none X)] at hstep
    rw [if_neg (by norm_num)] at hstep
    simp [processFrame, processFaces, initState, hstep]
  constructor
  · intro k hk
    match k with
    | 0 => rfl
    | (j + 1) =>
        have hj : j ≤ 1 := by omega
        have htake : ∀ g ∈ rest.take j, acceptsAs known_names X g :=
          fun g hg => hrest g (List.take_subset j rest hg)
        rw [List.take_succ_cons, List.map_cons, runFrames]
        simp only [Bool.false_eq_true, if_false, initState]
        rw [show processFrame known_names [f0]
            ⟨false, 0, none, 0⟩ = ⟨false, 1, some X, 0⟩ from hfirst]
        rw [runFrames_accum known_names X (rest.take j) htake 1 0 (by omega)]
        have hlt : 1 + (rest.take j).length < 3 := by
          have := List.length_take_le j rest
          omega
        rw [if_pos hlt]
  · rw [List.map_cons, runFrames]
    simp only [Bool.false_eq_true, if_false, initState]
    rw [show processFrame known_names [f0]
        ⟨false, 0, none, 0⟩ = ⟨false, 1, some X, 0⟩ from hfirst]
    rw [runFrames_accum known_names X rest hrest 1 0 (by omega)]
    have hge : ¬ 1 + rest.length < 3 := by
      simp only [List.length_cons] at hlen
      omega
    rw [if_neg hge]

/-- Witness for C7 on a store with one encoding at distance 1/2. -/
theorem recognition_double_threshold_witness :
    ([(1:ℚ)/2] : List ℚ).getD (np_argmin [(1:ℚ)/2]) 0 ∈ [(1:ℚ)/2] ∧
    (((compare_faces [(1:ℚ)/2] (11/20)).getD (np_argmin [(1:ℚ)/2]) false
        = true ∧
      ([(1:ℚ)/2] : List ℚ).getD (np_argmin [(1:ℚ)/2]) 0 < 3/5) ↔
      (stepFace ["alice"] initState ⟨[(1:ℚ)/2]⟩).1.last_recognized_name
        = some (["alice"].getD (np_argmin [(1:ℚ)/2]) "")) := by
  have h := recognition_double_threshold ["alice"] initState ⟨[(1:ℚ)/2]⟩
    (by decide)
  exact ⟨h.1.1, h.2.1⟩

/-- Witness for C6 on three identical frames at distance 1/2: after
two frames the session is not yet accepted, after the third it is,
with one ledger write. -/
theorem confirmation_requires_three_witness :
    (runFrames ["alice"]
        (([(⟨[(1:ℚ)/2]⟩ : Face), ⟨[(1:ℚ)/2]⟩, ⟨[(1:ℚ)/2]⟩].take 2).map
          fun f => [f]) initState).recognized = false ∧
    runFrames ["alice"]
        ([(⟨[(1:ℚ)/2]⟩ : Face), ⟨[(1:ℚ)/2]⟩, ⟨[(1:ℚ)/2]⟩].map fun f => [f])
        initState = ⟨true, 3, some "alice", 1⟩ := by
  have hacc : acceptsAs ["alice"] "alice" (⟨[(1:ℚ)/2]⟩ : Face) := by
    refine ⟨by decide, ?_, by norm_num [np_argmin], by decide⟩
    norm_num [compare_faces, np_argmin]
  have hall : ∀ f ∈ [(⟨[(1:ℚ)/2]⟩ : Face), ⟨[(1:ℚ)/2]⟩, ⟨[(1:ℚ)/2]⟩],
      acceptsAs ["alice"] "alice" f := by
    intro f hf
    simp only [List.mem_cons, List.not_mem_nil, or_false] at hf
    rcases hf with rfl | rfl | rfl <;> exact hacc
  exact ⟨(confirmation_requires_three ["alice"] "alice" _ hall
      (by decide)).1 2 (by norm_num),
    (confirmation_requires_three ["alice"] "alice" _ hall (by decide)).2⟩


end AttendanceSystem
